import Mathlib

/-!
Verification development for the mundane command-line application framework
(mundane/app.py): the command registration and dispatch engine.

The Python source is shallowly embedded: the mutable `argparse.Namespace`
becomes an association list threaded through state-passing functions, the
external argument parser (argparse's tokenizing/validation, an external
collaborator in the spec) is represented by its observable outcome, and
Python exceptions become an `Except` result.

Version note.  The file mundane/app.py in this snapshot predates its own test
file and examples: app_test.py refers to a `SubParser` name the module does
not define, and test_data/flags_three.py together with examples/nebulous.py
pass `name=` and `usage_only=` arguments that this `register_command` does not
accept.  The current `register_command`/`run` (with usage-only grouping nodes,
explicit name overrides, trailing-underscore stripping and duplicate-name
detection) is therefore not part of the snapshot; those operations are
modelled here from the specification and are clearly marked as such.
Everything else is translated directly from mundane/app.py.
-/

namespace Mundane

/-- Attribute values carried by an `argparse.Namespace`. -/
inductive Value where
  | vnone : Value
  | vbool : Bool → Value
  | vint : Int → Value
  | vstr : String → Value
deriving DecidableEq, Repr

/-- A Python `argparse.Namespace`: a dynamically extensible record, embedded
as an association list from attribute names to values.  Mutation becomes
state passing. -/
def PyNamespace := List (String × Value)

instance : DecidableEq PyNamespace := by
  unfold PyNamespace
  infer_instance

/-- `getattr(ns, key, None)`-style lookup. -/
def getattr (ns : PyNamespace) (key : String) : Option Value :=
  (ns.find? (fun p => p.1 == key)).map (fun p => p.2)

/-- `setattr(ns, key, v)`: the new binding shadows any previous one. -/
def setAttr (ns : PyNamespace) (key : String) (v : Value) : PyNamespace :=
  (key, v) :: ns.filter (fun p => p.1 != key)

/-- One flag definition (`add_argument`), keeping its option strings. -/
structure Flag where
  strings : List String
deriving DecidableEq, Repr

/-- An `argparse.ArgumentParser`, reduced to the structure the claims are
about: whether it was constructed with the automatic `-h and --help` action
(`add_help=True`) and the flags later added via `add_argument`.  Rendering of
help text is the external parser facade's job and is left opaque. -/
structure Parser where
  autoHelp : Bool
  flags : List Flag
deriving DecidableEq, Repr

/-- The action list of a parser: `argparse` installs the automatic help
action first (when `add_help` is true), then the explicitly added flags. -/
def Parser.actions (p : Parser) : List Flag :=
  (if p.autoHelp then [Flag.mk ["-h", "--help"]] else []) ++ p.flags

/-- Number of automatic help actions a parser contributes. -/
def autoHelpCount (p : Parser) : Nat :=
  if p.autoHelp then 1 else 0

/-- `subparser.add_parser(...)` builds the command's parser with argparse's
default `add_help=True` and with the actions of every parser given in
`parents=` copied in (argparse adds the automatic help action first, then
copies parent actions). -/
def addParser (parents : List Parser) : Parser :=
  { autoHelp := true, flags := parents.flatMap Parser.actions }

/-- Automatic help actions present in a parser built by `addParser`:
its own plus every one copied from a parent. -/
def combinedAutoHelp (parents : List Parser) : Nat :=
  1 + (parents.map autoHelpCount).sum

/-- A Python exception escaping a hook, a handler, or `parse_args`. -/
inductive PyExn where
  | exn : String → PyExn
  | systemExit : Option Int → PyExn
deriving DecidableEq, Repr

/-- A line of process output: either plain printed text or the rendered help
of a particular parser (`print_help`); keeping the parser itself, instead of
its rendered text, records exactly whose help was printed. -/
inductive OutLine where
  | text : String → OutLine
  | helpOf : Parser → OutLine
deriving DecidableEq, Repr

/-- What invoking a command handler produces: its printed lines and either a
returned exit code (`none` models Python's `None` return) or a raised
exception. -/
structure HandlerOutcome where
  out : List OutLine
  result : Except PyExn (Option Int)

/-- A command handler: `CommandFunc` of app.py, `(Namespace) -> int`. -/
def Handler := PyNamespace → HandlerOutcome

/-- An after-parse hook: `NamespaceHook` of app.py, `(Namespace) -> None`;
it may mutate the namespace or raise. -/
def Hook := PyNamespace → Except PyExn PyNamespace

/-- The `ArgparseApp` state the claims concern: the root parser, the command
map of the lazily created top-level subparser, the shared parser registry
(`self._shared_parsers`, insertion ordered), and the after-parse hooks. -/
structure ArgparseApp where
  parser : Parser
  commands : List (String × Parser)
  sharedParsers : List (String × Parser)
  afterParseHooks : List Hook

/-- `ArgparseApp.__init__`: the root parser is created with `add_help=False`
and then `-h and --help` is added explicitly to the global-flags group. -/
def ArgparseApp.init : ArgparseApp :=
  { parser := { autoHelp := false, flags := [Flag.mk ["-h", "--help"]] }
    commands := []
    sharedParsers := []
    afterParseHooks := [] }

/-- Dictionary lookup in the shared parser registry. -/
def lookupShared (l : List (String × Parser)) (name : String) : Option Parser :=
  (l.find? (fun p => p.1 == name)).map (fun p => p.2)

/-- `ArgparseApp.new_shared_parser` (app.py lines 285-308): iff the name is
unused, store and return a fresh `ArgumentParser(add_help=False)`; otherwise
return `None` and leave the registry untouched. -/
def ArgparseApp.newSharedParser (app : ArgparseApp) (name : String) :
    Option Parser × ArgparseApp :=
  match lookupShared app.sharedParsers name with
  | some _ => (none, app)
  | none =>
      let p : Parser := { autoHelp := false, flags := [] }
      (some p, { app with sharedParsers := app.sharedParsers ++ [(name, p)] })

/-- `ArgparseApp.get_shared_parser` (app.py lines 310-323): a pure
`dict.get`; it takes the app and returns only the parser, so it cannot
change the registry. -/
def ArgparseApp.getSharedParser (app : ArgparseApp) (name : String) : Option Parser :=
  lookupShared app.sharedParsers name

/-- Caller code doing `shared.add_argument(...)` on a registry parser: the
stored parser object gains a flag; `add_argument` never changes the
`add_help` setting fixed at construction. -/
def ArgparseApp.addSharedArgument (app : ArgparseApp) (name : String) (fl : Flag) :
    ArgparseApp :=
  { app with
    sharedParsers := app.sharedParsers.map (fun np =>
      if np.1 == name then (np.1, { np.2 with flags := np.2.flags ++ [fl] }) else np) }

/-- `ArgparseApp.register_after_parse_hook` (app.py lines 325-345): append to
`self._after_parse_hooks`. -/
def ArgparseApp.register_after_parse_hook (app : ArgparseApp) (h : Hook) : ArgparseApp :=
  { app with afterParseHooks := app.afterParseHooks ++ [h] }

/-- `ArgparseApp.register_command` as it stands in this snapshot (app.py
lines 347-397): the name is the function name with every underscore replaced
by a hyphen (`str.replace` with a one-character pattern is a character map),
the command parser comes from `add_parser` with any `parents=` folded in, and
the `func` default is set on it (that default is observable in parse results,
which this model supplies through `ParseOutcome`). -/
def ArgparseApp.register_command (app : ArgparseApp) (fname : String)
    (parents : List Parser) : ArgparseApp × Parser :=
  let name := String.map (fun c => if c == '_' then '-' else c) fname
  let parser := addParser parents
  ({ app with commands := app.commands ++ [(name, parser)] }, parser)

/-- Apps reachable through the public registration API, starting from
`__init__`. -/
inductive Reachable : ArgparseApp → Prop where
  | init : Reachable ArgparseApp.init
  | newShared (name : String) {a : ArgparseApp} :
      Reachable a → Reachable (a.newSharedParser name).2
  | sharedArgument (name : String) (fl : Flag) {a : ArgparseApp} :
      Reachable a → Reachable (a.addSharedArgument name fl)
  | afterParseHook (h : Hook) {a : ArgparseApp} :
      Reachable a → Reachable (a.register_after_parse_hook h)
  | command (fname : String) (parents : List Parser) {a : ArgparseApp} :
      Reachable a → Reachable (a.register_command fname parents).1

/-- `os.EX_USAGE`. -/
def EX_USAGE : Int := 64

/-- The observable outcome of `self.parser.parse_args(argv)`, the external
parser facade: either a namespace (with the `func` default of the selected
command, if any) or a `SystemExit` after argparse printed help or a usage
error itself. -/
inductive ParseOutcome where
  | parsed : Option Handler → PyNamespace → ParseOutcome
  | sysExit : Option Int → List OutLine → List OutLine → ParseOutcome

/-- What a call to `run` produces: the output written to the two streams and
either a returned exit value (`none` for a Python `None`) or a propagated
exception. -/
structure RunOutcome where
  stdout : List OutLine
  stderr : List OutLine
  result : Except PyExn (Option Int)

/-- The `for hook in self._after_parse_hooks: hook(args)` loop: hooks run in
list order on the single namespace object; a raise aborts the loop. -/
def runHooks (hooks : List Hook) (args : PyNamespace) : Except PyExn PyNamespace :=
  match hooks with
  | [] => .ok args
  | h :: rest =>
      match h args with
      | .ok args' => runHooks rest args'
      | .error e => .error e

/-- `ArgparseApp.run` (app.py lines 474-493).  A `SystemExit` inside
`parse_args` propagates before any hook runs; otherwise the hooks run, then
`ret = os.EX_USAGE`; if the namespace carries `func` it is invoked and its
return value is returned unchanged, else the top-level parser's help is
printed to stdout.  The `ret or 0` in the source occurs only inside a
`logging.debug` call and never touches the returned value. -/
def ArgparseApp.run (app : ArgparseApp) (outcome : ParseOutcome) : RunOutcome :=
  match outcome with
  | .sysExit code out err => { stdout := out, stderr := err, result := .error (.systemExit code) }
  | .parsed func attrs =>
      match runHooks app.afterParseHooks attrs with
      | .error e => { stdout := [], stderr := [], result := .error e }
      | .ok args =>
          match func with
          | some f => { stdout := (f args).out, stderr := [], result := (f args).result }
          | none =>
              { stdout := [OutLine.helpOf app.parser], stderr := [],
                result := .ok (some EX_USAGE) }

/-- Python whitespace for `str.strip` and textwrap's whitespace munging. -/
def isPyWhitespace (c : Char) : Bool :=
  c == ' ' || c == '\t' || c == '\n' || c == '\r' || c == '\x0b' || c == '\x0c'

/-- Group a character list into maximal runs ("chunks") of space and
non-space characters, the tokenization textwrap performs after whitespace
replacement.  (The stdlib additionally splits hyphenated words and em-dashes;
that refinement of the word separator is not modelled.) -/
def chunkRunsAux (current : List Char) : List Char → List (List Char)
  | [] => if current.isEmpty then [] else [current.reverse]
  | c :: rest =>
      match current with
      | [] => chunkRunsAux [c] rest
      | d :: _ =>
          if ((d == ' ') == (c == ' ')) then chunkRunsAux (c :: current) rest
          else current.reverse :: chunkRunsAux [c] rest

/-- All chunks of a normalized text. -/
def chunkRuns (cs : List Char) : List (List Char) :=
  chunkRunsAux [] cs

/-- A chunk consisting only of spaces (whitespace after normalization). -/
def isSpaceRun (l : List Char) : Bool :=
  l.all (fun c => c == ' ')

/-- The greedy inner loop of textwrap's `_wrap_chunks`: move chunks onto the
current line while they fit; return the line's chunks and the rest. -/
def takeLine (width : Nat) (acc : List (List Char)) (len : Nat) :
    List (List Char) → List (List Char) × List (List Char)
  | [] => (acc, [])
  | ch :: rest =>
      if len + ch.length ≤ width then takeLine width (acc ++ [ch]) (len + ch.length) rest
      else (acc, ch :: rest)

/-- The outer loop of `_wrap_chunks` with the default options
(`drop_whitespace=True`, `break_long_words=True`): per line, drop a leading
whitespace chunk (except on the first line), fill greedily, break a chunk
longer than the full width at the remaining room, drop a trailing whitespace
chunk, and emit the line if nonempty.  Recursion is fueled; the fuel passed
by `textwrap_fill` exceeds the number of iterations possible. -/
def wrapLoop (width : Nat) : Nat → List (List Char) → List (List Char) → List (List Char)
  | 0, lines, _ => lines
  | _ + 1, lines, [] => lines
  | fuel + 1, lines, ch0 :: rest0 =>
      let chunks :=
        if isSpaceRun ch0 && !lines.isEmpty then rest0 else ch0 :: rest0
      let taken := takeLine width [] 0 chunks
      let broken :=
        match taken.2 with
        | ch :: rest =>
            if width < ch.length then
              let curLen := (taken.1.map List.length).sum
              let spaceLeft := if width < 1 then 1 else width - curLen
              (taken.1 ++ [ch.take spaceLeft], ch.drop spaceLeft :: rest)
            else taken
        | [] => taken
      let curLine :=
        match broken.1.getLast? with
        | some l => if isSpaceRun l then broken.1.dropLast else broken.1
        | none => broken.1
      let lines' := if curLine.isEmpty then lines else lines ++ [curLine.flatten]
      wrapLoop width fuel lines' broken.2

/-- `textwrap.fill(text, width=width)` with its default options, on the
text's character list: munge every whitespace character to a space, chunk,
wrap greedily, and join the lines with newlines.  Not modelled: tab-stop
expansion (a tab becomes one space here) and the hyphen-aware word splitting
of the stdlib's separator regex.  The string functions of the `Docstring`
pipeline are given on character lists so that every definition computes by
structural recursion. -/
def fillChars (width : Nat) (cs : List Char) : List Char :=
  let norm := cs.map (fun c => if isPyWhitespace c then ' ' else c)
  let chunks := chunkRuns norm
  let lines := wrapLoop width (norm.length + chunks.length + 1) [] chunks
  List.intercalate ['\n'] lines

/-- `textwrap.fill` at the string boundary. -/
def textwrap_fill (width : Nat) (text : String) : String :=
  String.mk (fillChars width text.data)

/-- Python `str.strip()`: drop whitespace from both ends. -/
def pyStripChars (cs : List Char) : List Char :=
  ((cs.dropWhile isPyWhitespace).reverse.dropWhile isPyWhitespace).reverse

/-- Python `content.split('\n')`, character-list level; like Python's
one-separator `split` it yields one (possibly empty) piece per segment, and
`[[]]` for the empty string. -/
def splitLinesAux (current : List Char) : List Char → List (List Char)
  | [] => [current.reverse]
  | c :: rest =>
      if c == '\n' then current.reverse :: splitLinesAux [] rest
      else splitLinesAux (c :: current) rest

/-- All `'\n'`-separated lines of a text. -/
def splitLines (cs : List Char) : List (List Char) :=
  splitLinesAux [] cs

/-- The loop body of the `paragraphs` generator inside `Docstring._process`
(app.py lines 91-106) after its first yield: stripped nonblank lines
accumulate in `current`; a blank line flushes `current` as one filled
paragraph; a final nonempty `current` is flushed at the end. -/
def paragraphsTail (width : Nat) : List (List Char) → List (List Char) → List (List Char)
  | [], current =>
      if current.isEmpty then []
      else [fillChars width (List.intercalate [' '] current)]
  | item :: rest, current =>
      let stripped := pyStripChars item
      if stripped.isEmpty then
        if current.isEmpty then paragraphsTail width rest []
        else fillChars width (List.intercalate [' '] current) ::
          paragraphsTail width rest []
      else paragraphsTail width rest (current ++ [stripped])

/-- The `paragraphs` generator of `Docstring._process`: it first yields the
fill of the stripped FIRST LINE (`split.pop(0)`), then blank-line separated
groups of the remaining lines. -/
def Docstring.paragraphs (width : Nat) (content : List Char) : List (List Char) :=
  match splitLines content with
  | [] => []
  | first :: rest => fillChars width (pyStripChars first) :: paragraphsTail width rest []

/-- The summary assignment of `_process`: `self._summary` starts empty and is
overwritten by the current paragraph whenever it is still falsy. -/
def summaryLoop (s : List Char) : List (List Char) → List Char
  | [] => s
  | p :: rest => summaryLoop (if s.isEmpty then p else s) rest

/-- The two derived fields of a `Docstring`. -/
structure DocstringParts where
  summary : String
  description : String
deriving DecidableEq, Repr

/-- `Docstring._process` (app.py lines 85-114) applied to the docstring text
`inspect.getdoc` produced (the empty string standing for a missing
docstring, which is equally falsy): description joins all yielded paragraphs
with blank lines; summary is the first truthy one. -/
def Docstring.process (width : Nat) (doc : String) : DocstringParts :=
  let paras := if doc.data.isEmpty then [] else Docstring.paragraphs width doc.data
  { summary := String.mk (summaryLoop [] paras)
    description := String.mk (List.intercalate ['\n', '\n'] paras) }

/-- Blank-line separated groups of stripped lines, written independently of
the yielding loop; used to characterize what `_process` computes. -/
def blockRunsAux : List (List Char) → List (List Char) → List (List (List Char))
  | [], current => if current.isEmpty then [] else [current]
  | item :: rest, current =>
      let stripped := pyStripChars item
      if stripped.isEmpty then
        if current.isEmpty then blockRunsAux rest []
        else current :: blockRunsAux rest []
      else blockRunsAux rest (current ++ [stripped])

/-- The paragraph texts `_process` operates on: the stripped first line, then
each blank-line separated group of later lines joined with single spaces. -/
def docParagraphTexts (cs : List Char) : List (List Char) :=
  match splitLines cs with
  | [] => []
  | first :: rest =>
      pyStripChars first :: (blockRunsAux rest []).map (fun g => List.intercalate [' '] g)

/-- The claim's reading of the summary: the whole FIRST PARAGRAPH (all lines
up to the first blank line), whitespace-joined, reflowed to the width. -/
def firstParagraphReflowed (width : Nat) (doc : String) : String :=
  String.mk (fillChars width
    (List.intercalate [' ']
      (((splitLines doc.data).map pyStripChars).takeWhile (fun l => !l.isEmpty))))

/-- Replace each underscore with a hyphen (Python identifiers have no
hyphens, so the one-character replace is a character map). -/
def hyphenateChars (cs : List Char) : List Char :=
  cs.map (fun c => if c == '_' then '-' else c)

/-- Modelled from the spec: the trailing-underscore convention of the current
`register_command`, absent from this snapshot's app.py — one trailing
underscore (used to dodge a keyword collision) is stripped before
hyphenation. -/
def stripTrailingUnderscore (cs : List Char) : List Char :=
  if cs.getLast? == some '_' then cs.dropLast else cs

/-- Modelled from the spec: name derivation of the current
`register_command` — underscores become hyphens after one trailing
underscore, if any, is stripped. -/
def derivedName (ident : String) : String :=
  String.mk (hyphenateChars (stripTrailingUnderscore ident.data))

/-- Registration-time programmer errors (spec section 7). -/
inductive RegError where
  | duplicateCommand : String → RegError
  | duplicateSharedGroup : String → RegError
deriving DecidableEq, Repr

/-- A command node of the spec's CommandTree: its derived name, the handler
stored as the `func` default of its scoped parser (absent for a usage-only
grouping node), and that scoped parser. -/
structure CommandNode where
  name : String
  func : Option Handler
  parser : Parser

/-- Modelled from the spec: the current `register_command` (spec section
4.2), which this snapshot's app.py predates.  Within the sibling scope it
derives the name (unless overridden), fails fast with a duplicate-command
error if the name collides with an existing sibling — never overwriting the
first registration — and otherwise attaches a node whose scoped parser folds
in the parent groups and whose `func` default is the handler, UNLESS
`usageOnly` is set, in which case `func` is deliberately left unset. -/
def registerCommandSpec (scope : List CommandNode) (ident : String)
    (handler : Handler) (parents : List Parser) (usageOnly : Bool)
    (nameOverride : Option String) :
    Except RegError (List CommandNode × CommandNode) :=
  let name := nameOverride.getD (derivedName ident)
  if scope.any (fun n => n.name == name) then .error (.duplicateCommand name)
  else
    let node : CommandNode :=
      { name := name
        func := if usageOnly then none else some handler
        parser := addParser parents }
    .ok (scope ++ [node], node)

/-- Modelled from the spec: the parse result of the current dispatcher also
records the nearest enclosing command parser (the parser of the deepest
command node selected, the root parser when no command was given), which the
fixed `run` uses for its help fallback. -/
inductive SpecParseOutcome where
  | parsedSpec : Option Handler → Parser → PyNamespace → SpecParseOutcome
  | sysExitSpec : Option Int → List OutLine → List OutLine → SpecParseOutcome

/-- Modelled from the spec: the current dispatcher `run` (spec section 4.4),
which this snapshot's app.py predates.  It is `ArgparseApp.run` except that
when no `func` was selected it prints the help of the NEAREST enclosing
parser recorded in the parse result — a usage-only node invoked without a
child presents that node's own help, not the root's — and returns the usage
exit code. -/
def runSpec (hooks : List Hook) (outcome : SpecParseOutcome) : RunOutcome :=
  match outcome with
  | .sysExitSpec code out err =>
      { stdout := out, stderr := err, result := .error (.systemExit code) }
  | .parsedSpec func nearest attrs =>
      match runHooks hooks attrs with
      | .error e => { stdout := [], stderr := [], result := .error e }
      | .ok args =>
          match func with
          | some f => { stdout := (f args).out, stderr := [], result := (f args).result }
          | none =>
              { stdout := [OutLine.helpOf nearest], stderr := [],
                result := .ok (some EX_USAGE) }

/-! ### Helper lemmas and observation gadgets -/

theorem getattr_setAttr (ns : PyNamespace) (key : String) (v : Value) :
    getattr (setAttr ns key v) key = some v := by
  unfold getattr setAttr
  rw [List.find?_cons_of_pos _ (by simp)]
  rfl

theorem runHooks_append (hooks1 hooks2 : List Hook) (ns : PyNamespace) :
    runHooks (hooks1 ++ hooks2) ns =
      match runHooks hooks1 ns with
      | .ok ns' => runHooks hooks2 ns'
      | .error e => .error e := by
  induction hooks1 generalizing ns with
  | nil => rfl
  | cons h rest ih =>
      simp only [List.cons_append, runHooks]
      cases h ns with
      | ok ns' => exact ih ns'
      | error e => rfl

/-- The attribute used to observe in which order the hooks ran. -/
def traceStr (ns : PyNamespace) : String :=
  match getattr ns "hook_trace" with
  | some (.vstr s) => s
  | _ => ""

/-- A hook that appends its own index to the order attribute, so that the
value each hook leaves behind records every hook that ran before it. -/
def traceHook (i : Nat) : Hook :=
  fun ns => .ok (setAttr ns "hook_trace" (.vstr (traceStr ns ++ toString i ++ ";")))

/-- A hook that writes one attribute, as `init_db` in the examples does. -/
def setHook (key : String) (v : Value) : Hook :=
  fun ns => .ok (setAttr ns key v)

/-- The index tokens of hooks `l`, appended in order after `start`. -/
def traceOf (start : String) : List Nat → String
  | [] => start
  | i :: rest => traceOf (start ++ toString i ++ ";") rest

theorem traceStr_setAttr (ns : PyNamespace) (s : String) :
    traceStr (setAttr ns "hook_trace" (.vstr s)) = s := by
  unfold traceStr
  rw [getattr_setAttr]

theorem runHooks_traceHooks (l : List Nat) (ns : PyNamespace) :
    ∃ ns2, runHooks (l.map traceHook) ns = .ok ns2 ∧
      traceStr ns2 = traceOf (traceStr ns) l := by
  induction l generalizing ns with
  | nil => exact ⟨ns, rfl, rfl⟩
  | cons i rest ih =>
      obtain ⟨ns2, h1, h2⟩ :=
        ih (setAttr ns "hook_trace" (.vstr (traceStr ns ++ toString i ++ ";")))
      refine ⟨ns2, ?_, ?_⟩
      · simpa [runHooks, traceHook] using h1
      · rw [h2, traceStr_setAttr]
        rfl

/-! ### Claim C4: the shared flag-group registry -/

/-- C4.  `new_shared_parser` allocates, stores and returns a fresh empty
`add_help=False` parser when the name is unused; on a used name it returns
`None` with the whole app state (hence the stored parser) unchanged;
`get_shared_parser` is the pure registry lookup — by its type it returns only
the parser and cannot mutate the registry — giving the stored parser or
`None` when the name was never created. -/
theorem c4_shared_parser_registry (app : ArgparseApp) (name : String) :
    (app.getSharedParser name = lookupShared app.sharedParsers name) ∧
    (lookupShared app.sharedParsers name = none →
      (app.newSharedParser name).1 = some { autoHelp := false, flags := [] } ∧
      ((app.newSharedParser name).2).getSharedParser name =
        some { autoHelp := false, flags := [] } ∧
      app.getSharedParser name = none) ∧
    (∀ p, lookupShared app.sharedParsers name = some p →
      (app.newSharedParser name).1 = none ∧
      (app.newSharedParser name).2 = app ∧
      app.getSharedParser name = some p) := by
  refine ⟨rfl, ?_, ?_⟩
  · intro h
    have hfind : app.sharedParsers.find? (fun q => q.1 == name) = none := by
      simpa [lookupShared] using h
    refine ⟨?_, ?_, ?_⟩
    · simp [ArgparseApp.newSharedParser, h]
    · simp [ArgparseApp.newSharedParser, h, ArgparseApp.getSharedParser, lookupShared,
        List.find?_append, hfind, List.find?_cons_of_pos]
    · simpa [ArgparseApp.getSharedParser] using h
  · intro p h
    refine ⟨?_, ?_, ?_⟩
    · simp [ArgparseApp.newSharedParser, h]
    · simp [ArgparseApp.newSharedParser, h]
    · simpa [ArgparseApp.getSharedParser] using h

/-- C4 witness: a concrete create, conflicting re-create, and fetch. -/
theorem c4_witness :
    ((ArgparseApp.init.newSharedParser "req_file").1 =
        some { autoHelp := false, flags := [] } ∧
      (((ArgparseApp.init.newSharedParser "req_file").2).newSharedParser "req_file").1 =
        none) ∧
    ((ArgparseApp.init.newSharedParser "req_file").2).getSharedParser "req_file" =
      some { autoHelp := false, flags := [] } := by
  refine ⟨⟨((c4_shared_parser_registry ArgparseApp.init "req_file").2.1 rfl).1, ?_⟩, ?_⟩
  · exact (((c4_shared_parser_registry
      ((ArgparseApp.init.newSharedParser "req_file").2) "req_file").2.2)
        { autoHelp := false, flags := [] } (by decide)).1
  · exact ((c4_shared_parser_registry ArgparseApp.init "req_file").2.1 rfl).2.1

/-! ### Claim C6: no `func` on the parsed result -/

/-- C6.  When the parsed result carries no `func` (for instance `run([])` on
an app that only registered commands and no default handler), and the hooks
complete, `run` prints the top-level parser's help to stdout, writes nothing
to stderr, and returns `os.EX_USAGE`. -/
theorem c6_no_func_prints_root_help (app : ArgparseApp) (attrs ns' : PyNamespace)
    (h : runHooks app.afterParseHooks attrs = .ok ns') :
    app.run (.parsed none attrs) =
      { stdout := [OutLine.helpOf app.parser], stderr := [],
        result := .ok (some EX_USAGE) } := by
  simp [ArgparseApp.run, h]

/-- C6 witness: the freshly initialized app on an empty parse result. -/
theorem c6_witness :
    ArgparseApp.init.run (.parsed none []) =
      { stdout := [OutLine.helpOf ArgparseApp.init.parser], stderr := [],
        result := .ok (some EX_USAGE) } :=
  c6_no_func_prints_root_help ArgparseApp.init [] [] rfl

/-! ### Claim C7: exit code pass-through -/

/-- C7 counterexample: a handler returning Python `None` makes `run` return
`None` itself, not `0` — the claimed normalization does not happen in `run`
(the repository's own test, `test_generate_report`, asserts the resulting
`SystemExit.code is None`; `ret or 0` appears only inside `logging.debug`). -/
theorem c7_counterexample :
    (ArgparseApp.init.run
        (.parsed (some (fun _ => { out := [], result := .ok none })) [])).result =
      .ok none ∧
    (Except.ok none : Except PyExn (Option Int)) ≠ .ok (some 0) := by
  exact ⟨rfl, by simp⟩

/-- C7 as amended: whenever the parsed result carries `func`, `run` invokes
it on the hook-processed result and returns its return value UNCHANGED as
the exit value; in particular a `None` return value stays `None` (it maps to
process exit status 0 only later, when the caller hands it to `sys.exit`). -/
theorem c7_exit_code_passthrough (app : ArgparseApp) (f : Handler)
    (attrs ns' : PyNamespace) (h : runHooks app.afterParseHooks attrs = .ok ns') :
    app.run (.parsed (some f) attrs) =
      { stdout := (f ns').out, stderr := [], result := (f ns').result } ∧
    ((f ns').result = .ok none →
      (app.run (.parsed (some f) attrs)).result = .ok none) := by
  constructor
  · simp [ArgparseApp.run, h]
  · intro hf
    simp [ArgparseApp.run, h, hf]

/-- C7 witness: a handler returning 3 yields exit value 3. -/
theorem c7_witness :
    ArgparseApp.init.run
        (.parsed (some (fun _ => { out := [OutLine.text "removing shoes"],
                                   result := .ok (some 3) })) []) =
      { stdout := [OutLine.text "removing shoes"], stderr := [],
        result := .ok (some 3) } :=
  (c7_exit_code_passthrough ArgparseApp.init
    (fun _ => { out := [OutLine.text "removing shoes"], result := .ok (some 3) })
    [] [] rfl).1

/-! ### Claim C9: exceptions propagate uncaught -/

/-- C9.  A raising after-parse hook is not caught: `run` propagates the
exception unchanged, nothing is printed, and the handler is never invoked
(the outcome does not depend on which handler was selected); a raising
handler is likewise not caught and its exception propagates unchanged. -/
theorem c9_exception_propagation (app : ArgparseApp) (attrs : PyNamespace)
    (e : PyExn) (f g : Handler) :
    (runHooks app.afterParseHooks attrs = .error e →
      app.run (.parsed (some f) attrs) =
        { stdout := [], stderr := [], result := .error e } ∧
      app.run (.parsed (some f) attrs) = app.run (.parsed (some g) attrs)) ∧
    (∀ ns' out, runHooks app.afterParseHooks attrs = .ok ns' →
      f ns' = { out := out, result := .error e } →
      app.run (.parsed (some f) attrs) =
        { stdout := out, stderr := [], result := .error e }) := by
  constructor
  · intro h
    constructor
    · simp [ArgparseApp.run, h]
    · simp [ArgparseApp.run, h]
  · intro ns' out h hf
    simp [ArgparseApp.run, h, hf]

/-- C9 witness: a concrete raising hook (registered through
`register_after_parse_hook`) aborts the run before the handler; a concrete
raising handler propagates its own exception. -/
theorem c9_witness :
    ((ArgparseApp.init.register_after_parse_hook
          (fun _ => .error (.exn "boom"))).run
        (.parsed (some (fun _ => { out := [OutLine.text "never"],
                                   result := .ok (some 0) })) []) =
      { stdout := [], stderr := [], result := .error (.exn "boom") }) ∧
    (ArgparseApp.init.run
        (.parsed (some (fun _ => { out := [], result := .error (.exn "issue 18") })) []) =
      { stdout := [], stderr := [], result := .error (.exn "issue 18") }) := by
  constructor
  · exact ((c9_exception_propagation
      (ArgparseApp.init.register_after_parse_hook (fun _ => .error (.exn "boom")))
      [] (.exn "boom")
      (fun _ => { out := [OutLine.text "never"], result := .ok (some 0) })
      (fun _ => { out := [], result := .ok none })).1 rfl).1
  · exact (c9_exception_propagation ArgparseApp.init [] (.exn "issue 18")
      (fun _ => { out := [], result := .error (.exn "issue 18") })
      (fun _ => { out := [], result := .ok none })).2 [] [] rfl rfl

/-! ### Claim C5: the after-parse hook chain -/

/-- C5.  Registration appends, so the hook list is in registration order;
on a successful parse the selected handler receives exactly the namespace
produced by folding the hooks over the parsed result (hooks run after the
parse and before dispatch, threading one namespace); hooks that record their
indices observe themselves running in list order, each seeing everything its
predecessors wrote; an attribute written by a hook is visible in the
namespace the handler receives; and when parsing fails or the user only
asked for help (`SystemExit` inside `parse_args`) the outcome is the same
whatever hooks are registered — no hook runs. -/
theorem c5_hook_chain (app : ArgparseApp) :
    (∀ h : Hook, (app.register_after_parse_hook h).afterParseHooks =
        app.afterParseHooks ++ [h]) ∧
    (∀ (f : Handler) (attrs ns' : PyNamespace),
      runHooks app.afterParseHooks attrs = .ok ns' →
      app.run (.parsed (some f) attrs) =
        { stdout := (f ns').out, stderr := [], result := (f ns').result }) ∧
    (∀ (l : List Nat) (ns : PyNamespace),
      ∃ ns2, runHooks (l.map traceHook) ns = .ok ns2 ∧
        traceStr ns2 = traceOf (traceStr ns) l) ∧
    (∀ (hooks1 : List Hook) (key : String) (v : Value) (attrs ns2 : PyNamespace),
      runHooks (hooks1 ++ [setHook key v]) attrs = .ok ns2 →
      getattr ns2 key = some v) ∧
    (∀ (hooks1 hooks2 : List Hook) (code : Option Int) (out err : List OutLine),
      ({ app with afterParseHooks := hooks1 } : ArgparseApp).run
          (.sysExit code out err) =
        ({ app with afterParseHooks := hooks2 } : ArgparseApp).run
          (.sysExit code out err)) := by
  refine ⟨fun h => rfl, ?_, runHooks_traceHooks, ?_, fun _ _ _ _ _ => rfl⟩
  · intro f attrs ns' h
    simp [ArgparseApp.run, h]
  · intro hooks1 key v attrs ns2 h
    rw [runHooks_append] at h
    cases h1 : runHooks hooks1 attrs with
    | error e => rw [h1] at h; exact absurd h (by simp)
    | ok ns1 =>
        rw [h1] at h
        simp only [runHooks, setHook] at h
        cases h
        exact getattr_setAttr ns1 key v

/-- C5 witness: three tracing hooks run as 0, 1, 2; a handler after a
writing hook sees the written attribute; both via the theorem. -/
theorem c5_witness :
    (∃ ns2, runHooks ([0, 1, 2].map traceHook) [] = .ok ns2 ∧
      traceStr ns2 = "0;1;2;") ∧
    getattr (setAttr [] "checker" (Value.vstr "Foo was False")) "checker" =
      some (Value.vstr "Foo was False") ∧
    (ArgparseApp.init.register_after_parse_hook
          (setHook "checker" (Value.vstr "Foo was False"))).run
        (.parsed (some (fun ns =>
          { out := [],
            result := .ok (some (if getattr ns "checker" =
                some (Value.vstr "Foo was False") then 3 else 7)) })) []) =
      { stdout := [], stderr := [], result := .ok (some 3) } := by
  refine ⟨?_, ?_, ?_⟩
  · obtain ⟨ns2, h1, h2⟩ := (c5_hook_chain ArgparseApp.init).2.2.1 [0, 1, 2] []
    exact ⟨ns2, h1, by rw [h2]; decide⟩
  · exact (c5_hook_chain ArgparseApp.init).2.2.2.1 [] "checker"
      (Value.vstr "Foo was False") [] (setAttr [] "checker" (Value.vstr "Foo was False")) rfl
  · exact Eq.trans
      ((c5_hook_chain (ArgparseApp.init.register_after_parse_hook
          (setHook "checker" (Value.vstr "Foo was False")))).2.1
        (fun ns =>
          { out := [],
            result := .ok (some (if getattr ns "checker" =
                some (Value.vstr "Foo was False") then 3 else 7)) })
        [] (setAttr [] "checker" (Value.vstr "Foo was False")) rfl)
      (by simp [getattr_setAttr])

/-! ### Claim C10: shared flag groups carry no automatic help flag -/

theorem reachable_shared_autoHelp {app : ArgparseApp} (h : Reachable app) :
    ∀ e ∈ app.sharedParsers, e.2.autoHelp = false := by
  induction h with
  | init => simp [ArgparseApp.init]
  | newShared name ha ih =>
      rename_i a
      unfold ArgparseApp.newSharedParser
      cases hl : lookupShared a.sharedParsers name with
      | some p => simpa using ih
      | none =>
          intro e he
          simp only [List.mem_append, List.mem_singleton] at he
          cases he with
          | inl hmem => exact ih e hmem
          | inr heq => rw [heq]
  | sharedArgument name fl ha ih =>
      rename_i a
      intro e he
      simp only [ArgparseApp.addSharedArgument, List.mem_map] at he
      obtain ⟨orig, hmem, heq⟩ := he
      have horig := ih orig hmem
      by_cases hname : (orig.1 == name) = true
      · rw [if_pos hname] at heq
        rw [← heq]
        exact horig
      · rw [if_neg hname] at heq
        rw [← heq]
        exact horig
  | afterParseHook hk ha ih => simpa [ArgparseApp.register_after_parse_hook] using ih
  | command fname parents ha ih => simpa [ArgparseApp.register_command] using ih

/-- C10.  In every app reachable through the registration API, every parser
stored in the shared-flag registry was created with `add_help=False` and
keeps it; consequently a command parser built by `add_parser` with any
selection of registry parsers as parents carries exactly one automatic
`-h, --help` action — its own — so folding a shared group in can never add a
second help flag conflicting with it. -/
theorem c10_shared_no_auto_help (app : ArgparseApp) (h : Reachable app) :
    (∀ e ∈ app.sharedParsers, e.2.autoHelp = false) ∧
    (∀ parents : List Parser,
      (∀ p ∈ parents, ∃ n, (n, p) ∈ app.sharedParsers) →
      (addParser parents).autoHelp = true ∧ combinedAutoHelp parents = 1) := by
  refine ⟨reachable_shared_autoHelp h, ?_⟩
  intro parents hp
  refine ⟨rfl, ?_⟩
  unfold combinedAutoHelp
  have hz : ∀ x ∈ parents.map autoHelpCount, x = 0 := by
    intro x hx
    obtain ⟨p, hmem, rfl⟩ := List.mem_map.mp hx
    obtain ⟨n, hn⟩ := hp p hmem
    have hfalse : p.autoHelp = false := reachable_shared_autoHelp h (n, p) hn
    simp [autoHelpCount, hfalse]
  rw [List.sum_eq_zero hz]
  rfl

/-- C10 witness: one freshly created shared group, with a flag added, still
has `add_help` disabled and contributes no automatic help action to a
command parser folding it in. -/
theorem c10_witness :
    (∀ e ∈ (((ArgparseApp.init.newSharedParser "shared").2).addSharedArgument
        "shared" (Flag.mk ["-x", "--xyzzy"])).sharedParsers,
      e.2.autoHelp = false) ∧
    ((addParser [{ autoHelp := false, flags := [Flag.mk ["-x", "--xyzzy"]] }]).autoHelp = true ∧
      combinedAutoHelp [{ autoHelp := false, flags := [Flag.mk ["-x", "--xyzzy"]] }] = 1) := by
  have hr : Reachable (((ArgparseApp.init.newSharedParser "shared").2).addSharedArgument
      "shared" (Flag.mk ["-x", "--xyzzy"])) :=
    Reachable.sharedArgument "shared" (Flag.mk ["-x", "--xyzzy"])
      (Reachable.newShared "shared" Reachable.init)
  refine ⟨(c10_shared_no_auto_help _ hr).1, (c10_shared_no_auto_help _ hr).2 _ ?_⟩
  intro p hp
  refine ⟨"shared", ?_⟩
  simp only [List.mem_singleton] at hp
  rw [hp]
  decide

/-! ### Claims C1-C3: the current registration engine (modelled from the
spec, see the version note at the top of this file) -/

theorem mem_of_getLast?_eq {α : Type} {l : List α} {a : α}
    (h : l.getLast? = some a) : a ∈ l := by
  have hmem : a ∈ l.getLast? := by rw [h]; rfl
  obtain ⟨hne, heq⟩ := List.mem_getLast?_eq_getLast hmem
  rw [heq]
  exact List.getLast_mem hne

/-- A concrete handler used by witnesses. -/
def demoHandler : Handler :=
  fun _ => { out := [OutLine.text "Roger, Roger."], result := .ok (some 0) }

/-- C1.  Registering with `usage_only=True` under a fresh name succeeds, the
reserved `func` default is deliberately left unset on the node, and invoking
that command with no child selected makes the dispatcher print that node's
own help — not the root's — and return the usage exit code instead of
crashing (the outcome is a normal return, not a propagated exception). -/
theorem c1_usage_only_node (scope : List CommandNode) (ident : String)
    (handler : Handler) (parents : List Parser) (attrs : PyNamespace)
    (hfresh : ∀ n ∈ scope, n.name ≠ derivedName ident) :
    registerCommandSpec scope ident handler parents true none =
      .ok (scope ++ [{ name := derivedName ident, func := none,
                       parser := addParser parents }],
           { name := derivedName ident, func := none,
             parser := addParser parents }) ∧
    runSpec [] (.parsedSpec none (addParser parents) attrs) =
      { stdout := [OutLine.helpOf (addParser parents)], stderr := [],
        result := .ok (some EX_USAGE) } ∧
    (∀ root : Parser, root ≠ addParser parents →
      (runSpec [] (.parsedSpec none (addParser parents) attrs)).stdout ≠
        [OutLine.helpOf root]) := by
  have hany : scope.any (fun n => n.name == derivedName ident) = false := by
    rw [List.any_eq_false]
    intro n hn
    simp [hfresh n hn]
  refine ⟨by simp [registerCommandSpec, hany], rfl, ?_⟩
  intro root hroot
  simp only [runSpec, runHooks]
  intro hcontra
  simp only [List.cons.injEq, OutLine.helpOf.injEq, and_true] at hcontra
  exact hroot hcontra.symm

/-- C1 witness: a concrete usage-only registration and its invocation with
no child selected. -/
theorem c1_witness :
    registerCommandSpec [] "roger" demoHandler [] true none =
      .ok ([{ name := derivedName "roger", func := none, parser := addParser [] }],
           { name := derivedName "roger", func := none, parser := addParser [] }) ∧
    runSpec [] (.parsedSpec none (addParser []) []) =
      { stdout := [OutLine.helpOf (addParser [])], stderr := [],
        result := .ok (some EX_USAGE) } := by
  have h := c1_usage_only_node [] "roger" demoHandler [] [] (by simp)
  exact ⟨h.1, h.2.1⟩

/-- C2.  For an identifier made of identifier characters ending in exactly
one trailing underscore (the base does not itself end in an underscore), the
derived name strips that underscore before hyphenating, so it carries no
trailing hyphen and coincides with the derived name of the base identifier,
and a registration under it records exactly that name. -/
theorem c2_trailing_underscore (base : List Char)
    (hident : ∀ c ∈ base, c.isAlphanum = true ∨ c = '_')
    (hone : base.getLast? ≠ some '_') :
    derivedName (String.mk (base ++ ['_'])) = String.mk (hyphenateChars base) ∧
    derivedName (String.mk base) = String.mk (hyphenateChars base) ∧
    (hyphenateChars base).getLast? ≠ some '-' ∧
    (∀ (handler : Handler) (parents : List Parser) (usageOnly : Bool),
      registerCommandSpec [] (String.mk (base ++ ['_'])) handler parents usageOnly none =
        .ok ([{ name := String.mk (hyphenateChars base),
                func := if usageOnly then none else some handler,
                parser := addParser parents }],
             { name := String.mk (hyphenateChars base),
               func := if usageOnly then none else some handler,
               parser := addParser parents })) := by
  have hdata : (String.mk (base ++ ['_'])).data = base ++ ['_'] := rfl
  have hstrip1 : stripTrailingUnderscore (base ++ ['_']) = base := by
    unfold stripTrailingUnderscore
    rw [List.getLast?_concat]
    simp
  have h1 : derivedName (String.mk (base ++ ['_'])) = String.mk (hyphenateChars base) := by
    unfold derivedName
    rw [hdata, hstrip1]
  have h2 : derivedName (String.mk base) = String.mk (hyphenateChars base) := by
    unfold derivedName stripTrailingUnderscore
    have : ((String.mk base).data.getLast? == some '_') = false := by
      simp only [beq_eq_false_iff_ne, ne_eq]
      exact hone
    rw [this]
    simp
  refine ⟨h1, h2, ?_, ?_⟩
  · unfold hyphenateChars
    rw [List.getLast?_map]
    cases hl : base.getLast? with
    | none => simp
    | some c =>
        have hc := hident c (mem_of_getLast?_eq hl)
        have hcu : c ≠ '_' := by
          intro hcontra
          rw [hcontra] at hl
          exact hone hl
        have halnum : c.isAlphanum = true := by
          cases hc with
          | inl h => exact h
          | inr h => exact absurd h hcu
        simp only [Option.map_some', ne_eq, Option.some.injEq]
        have : (if c == '_' then '-' else c) = c := by
          simp [hcu]
        rw [this]
        intro hcontra
        rw [hcontra] at halnum
        exact absurd halnum (by decide)
  · intro handler parents usageOnly
    simp [registerCommandSpec, h1]

/-- C2 witness: `foo_bar_` and `foo_bar` both derive `foo-bar`. -/
theorem c2_witness :
    derivedName "foo_bar_" = "foo-bar" ∧ derivedName "foo_bar" = "foo-bar" := by
  have h := c2_trailing_underscore "foo_bar".data (by decide) (by decide)
  have e1 : String.mk ("foo_bar".data ++ ['_']) = "foo_bar_" := by decide
  have e2 : String.mk (hyphenateChars "foo_bar".data) = "foo-bar" := by decide
  have e3 : String.mk "foo_bar".data = "foo_bar" := by decide
  exact ⟨by rw [← e1, h.1, e2], by rw [← e3, h.2.1, e2]⟩

/-- C3.  When a registration succeeded, a second registration whose derived
name is equal fails at that very call with the duplicate-command error, and
the scope still resolves the name to the FIRST node, whose stored handler is
untouched — nothing was silently overwritten and no parse or run was needed
to surface the error. -/
theorem c3_duplicate_command (scope scope1 : List CommandNode) (node1 : CommandNode)
    (ident1 ident2 : String) (h1 h2 : Handler) (par1 par2 : List Parser)
    (us1 us2 : Bool)
    (hreg : registerCommandSpec scope ident1 h1 par1 us1 none = .ok (scope1, node1))
    (hsame : derivedName ident2 = derivedName ident1) :
    registerCommandSpec scope1 ident2 h2 par2 us2 none =
      .error (.duplicateCommand (derivedName ident2)) ∧
    scope1.find? (fun n => n.name == derivedName ident1) = some node1 ∧
    node1.func = (if us1 then none else some h1) ∧
    node1.name = derivedName ident1 := by
  cases hany : scope.any (fun n => n.name == derivedName ident1) with
  | true => simp [registerCommandSpec, hany] at hreg
  | false =>
      simp only [registerCommandSpec, Option.getD_none, hany, Bool.false_eq_true,
        if_false, Except.ok.injEq, Prod.mk.injEq] at hreg
      obtain ⟨hscope, hnode⟩ := hreg
      subst hnode
      subst hscope
      have hnone : scope.find? (fun n => n.name == derivedName ident1) = none := by
        rw [List.find?_eq_none]
        intro n hn
        have := List.any_eq_false.mp hany n hn
        simpa using this
      refine ⟨?_, ?_, rfl, rfl⟩
      · have hany1 : (scope ++
            [({ name := derivedName ident1,
                func := if us1 then none else some h1,
                parser := addParser par1 } : CommandNode)]).any
              (fun n => n.name == derivedName ident2) = true := by
          rw [hsame, List.any_append]
          simp
        simp [registerCommandSpec, hany1]
      · rw [List.find?_append, hnone]
        simp [List.find?]

/-- The node the first `foo_bar` registration creates; used by the C3
witness. -/
def fooBarNode : CommandNode :=
  { name := derivedName "foo_bar", func := some demoHandler, parser := addParser [] }

/-- C3 witness: handlers `foo_bar` and `foo_bar_` collide on `foo-bar`; the
second registration errors and the first node is still the one found. -/
theorem c3_witness :
    registerCommandSpec [fooBarNode] "foo_bar_" demoHandler [] false none =
      .error (.duplicateCommand (derivedName "foo_bar_")) ∧
    [fooBarNode].find? (fun n => n.name == derivedName "foo_bar") = some fooBarNode := by
  have h := c3_duplicate_command [] [fooBarNode] fooBarNode
    "foo_bar" "foo_bar_" demoHandler demoHandler [] [] false false
    rfl (by decide)
  exact ⟨h.1, h.2.1⟩

/-! ### Claim C8: Docstring reflow -/

theorem paragraphsTail_eq_blockRuns (w : Nat) (items : List (List Char)) :
    ∀ current, paragraphsTail w items current =
      (blockRunsAux items current).map
        (fun g => fillChars w (List.intercalate [' '] g)) := by
  induction items with
  | nil =>
      intro current
      by_cases hc : current.isEmpty <;> simp [paragraphsTail, blockRunsAux, hc]
  | cons item rest ih =>
      intro current
      by_cases hs : (pyStripChars item).isEmpty
      · by_cases hc : current.isEmpty <;>
          simp [paragraphsTail, blockRunsAux, hs, hc, ih]
      · simp [paragraphsTail, blockRunsAux, hs, ih]

theorem summaryLoop_eq_find (paras : List (List Char)) :
    ∀ s, summaryLoop s paras =
      if s.isEmpty then ((paras.find? (fun p => !p.isEmpty)).getD []) else s := by
  induction paras with
  | nil =>
      intro s
      cases s <;> simp [summaryLoop]
  | cons p rest ih =>
      intro s
      cases s with
      | nil =>
          have h0 : summaryLoop [] (p :: rest) = summaryLoop p rest := by
            simp [summaryLoop]
          rw [h0, ih p]
          cases p with
          | nil => simp [List.find?]
          | cons c cs => simp [List.find?]
      | cons c cs =>
          have h0 : summaryLoop (c :: cs) (p :: rest) = summaryLoop (c :: cs) rest := by
            simp [summaryLoop]
          rw [h0, ih (c :: cs)]
          simp

/-- C8 as amended.  For every docstring text and width: `description` is the
blank-line join of the reflow of the stripped FIRST LINE followed by each
subsequent blank-line separated paragraph reflowed individually; `summary` is
the first nonempty of those reflowed paragraphs (so the first line's reflow
whenever the first line is nonblank) — not the whole first paragraph; and
re-reflowing a description is not idempotent in general (see the
counterexample: a wrapped first paragraph splits on a second pass). -/
theorem c8_docstring_reflow (w : Nat) (doc : String) :
    (Docstring.process w doc).description =
      String.mk (List.intercalate ['\n', '\n']
        ((docParagraphTexts doc.data).map (fillChars w))) ∧
    (Docstring.process w doc).summary =
      String.mk ((((docParagraphTexts doc.data).map (fillChars w)).find?
        (fun p => !p.isEmpty)).getD []) := by
  obtain ⟨data⟩ := doc
  cases data with
  | nil => exact ⟨rfl, rfl⟩
  | cons c cs =>
      unfold Docstring.process Docstring.paragraphs docParagraphTexts
      cases hsplit : splitLines (c :: cs) with
      | nil => simp [hsplit, summaryLoop]
      | cons first rest =>
          simp only [hsplit, String.data, List.isEmpty_cons, Bool.false_eq_true,
            if_false, List.map_cons, List.map_map]
          constructor
          · rw [paragraphsTail_eq_blockRuns]
            simp [Function.comp_def]
          · rw [paragraphsTail_eq_blockRuns, summaryLoop_eq_find]
            simp [Function.comp_def]

/-- C8 counterexample.  At `"One two."` newline `"Three four."` and width 80
the summary is the reflowed first LINE, not the reflowed first paragraph;
and at width 9 re-running the reflow over its own description output changes
it (the wrapped first paragraph is split at its first line break), refuting
idempotence. -/
theorem c8_counterexample :
    (Docstring.process 80 "One two.\nThree four.").summary ≠
      firstParagraphReflowed 80 "One two.\nThree four." ∧
    (Docstring.process 9 ((Docstring.process 9 "aaaa bbbb cccc").description)).description ≠
      (Docstring.process 9 "aaaa bbbb cccc").description := by
  constructor <;> decide

end Mundane
